import Mathlib

/-!
Verification of the natural-language specification of the synapse
authentication handler (src/synapse/handlers/auth.py) against a shallow
embedding of that module in Lean 4.

The embedding translates the Python source directly:
Python dicts become association lists with insert-or-overwrite update,
the in-memory session store becomes explicit state passing on an
AuthState value, exceptions become Except results, and external
collaborators (password providers, the persistent user store, the
bcrypt library, the recaptcha and identity services) become explicit
parameters, since their code lives outside this module.
-/

namespace Synapse

/-! ## Association-list dictionaries (the shallow embedding of Python dicts) -/

/-- Lookup in an association list, first binding wins (Python dict access). -/
def dictGet {α : Type} (k : String) : List (String × α) → Option α
  | [] => none
  | (k', v) :: rest => if k = k' then some v else dictGet k rest

/-- Insert-or-overwrite, keeping the position of an existing key
(Python dict assignment d[k] = v). -/
def dictInsert {α : Type} (k : String) (v : α) : List (String × α) → List (String × α)
  | [] => [(k, v)]
  | (k', v') :: rest =>
    if k = k' then (k, v) :: rest else (k', v') :: dictInsert k v rest

/-- Python dict.update: fold the right dict into the left one. -/
def dictUpdate {α : Type} (d : List (String × α)) (upd : List (String × α)) :
    List (String × α) :=
  upd.foldl (fun acc kv => dictInsert kv.1 kv.2 acc) d

/-! ## JSON-like values for request and response bodies -/

/-- A JSON-like value, just rich enough for the request and response
dictionaries that check_auth handles. -/
inductive J : Type where
  | s (str : String)
  | b (bool : Bool)
  | n (num : Nat)
  | arr (items : List J)
  | obj (fields : List (String × J))

/-! ## Error and data types of the auth handler -/

/-- Modelled from the spec: error codes from the set named in the checker
contract (synapse.api.errors.Codes, a module outside src/). Only the
distinctness of the codes matters to the embedding. -/
def Codes.UNRECOGNIZED : String := "M_UNRECOGNIZED"

/-- Modelled from the spec: see Codes.UNRECOGNIZED. -/
def Codes.MISSING_PARAM : String := "M_MISSING_PARAM"

/-- Modelled from the spec: see Codes.UNRECOGNIZED. -/
def Codes.UNAUTHORIZED : String := "M_UNAUTHORIZED"

/-- Modelled from the spec: see Codes.UNRECOGNIZED. -/
def Codes.FORBIDDEN : String := "M_FORBIDDEN"

/-- Modelled from the spec: the stage-type identifiers
(synapse.api.constants.LoginType, a module outside src/); the dummy and
password literals appear verbatim in the spec scenarios. -/
def LoginType.PASSWORD : String := "m.login.password"

/-- Modelled from the spec: see LoginType.PASSWORD. -/
def LoginType.RECAPTCHA : String := "m.login.recaptcha"

/-- Modelled from the spec: see LoginType.PASSWORD. -/
def LoginType.EMAIL_IDENTITY : String := "m.login.email.identity"

/-- Modelled from the spec: see LoginType.PASSWORD. -/
def LoginType.MSISDN : String := "m.login.msisdn"

/-- Modelled from the spec: see LoginType.PASSWORD. -/
def LoginType.DUMMY : String := "m.login.dummy"

/-- A raised LoginError(code, msg, errcode). -/
structure LoginError : Type where
  code : Nat
  msg : String
  errcode : String
deriving DecidableEq

/-- Modelled from the spec: LoginError.error_dict
(synapse.api.errors, outside src/) produces the errcode and error
fields that the flow-description response carries on a stage failure. -/
def LoginError.error_dict (e : LoginError) : List (String × J) :=
  [("errcode", J.s e.errcode), ("error", J.s e.msg)]

/-- A value recorded in the session credential map: the checkers return a
canonical user id (str), a boolean (captcha, dummy) or a threepid record
(dict). Truthiness mirrors Python. -/
inductive CredValue : Type where
  | bool (b : Bool)
  | str (s : String)
  | obj (fields : List (String × String))
deriving DecidableEq

/-- Python truthiness of a checker result, used by the guard if result. -/
def CredValue.truthy : CredValue → Bool
  | .bool b => b
  | .str s => !(s.isEmpty)
  | .obj fields => !(fields.isEmpty)

/-- The auth block sent by the client inside the request payload. -/
structure AuthDict : Type where
  session : Option String
  type : Option String
  fields : List (String × J)

/-- Python truthiness of the auth block (an empty dict is falsy). -/
def AuthDict.truthy (a : AuthDict) : Bool :=
  a.session.isSome || a.type.isSome || !(a.fields.isEmpty)

/-- The client request payload: the optional embedded auth block plus the
remaining top-level parameters. -/
structure ClientDict : Type where
  auth : Option AuthDict
  rest : List (String × J)

/-- A UIA session as stored in the expiring session cache. A fresh session
is just an id; creds, clientdict, serverdict and last_used appear as the
corresponding keys are first assigned. -/
structure Session : Type where
  id : String
  creds : List (String × CredValue)
  clientdict : Option (List (String × J))
  serverdict : List (String × J)
  last_used : Option Nat

/-- The mutable state of the handler: the session store, keyed by
session id. TTL-based expiry of the underlying ExpiringCache is not
modelled; live sessions are exactly the stored ones. -/
structure AuthState : Type where
  sessions : List (String × Session)

/-- The behaviour of the external collaborators consulted by the stage
checkers: the password checker delegates to validate_login over providers
and the user store, the recaptcha checker posts to the verification
endpoint, and the threepid checker asks the identity service. Their
outcome for a given auth dict is a parameter of the embedding. -/
structure Env : Type where
  password_check : AuthDict → Except LoginError CredValue
  recaptcha_check : AuthDict → String → Except LoginError CredValue
  threepid_check : String → AuthDict → Except LoginError CredValue

/-- Server configuration consulted by the orchestrator. -/
structure AuthConfig : Type where
  recaptcha_public_key : String

/-- Whether a checker is registered for a stage type: the fixed
self.checkers registry of AuthHandler. -/
def checkerRegistered (t : String) : Bool :=
  t == LoginType.PASSWORD || t == LoginType.RECAPTCHA ||
    t == LoginType.EMAIL_IDENTITY || t == LoginType.MSISDN || t == LoginType.DUMMY

/-- Dispatch to the registered checker for a stage type; none when no
checker is registered. The dummy checker always succeeds with True
(AuthHandler._check_dummy_auth); the others consult the environment. -/
def runChecker (env : Env) (t : String) (authdict : AuthDict) (clientip : String) :
    Option (Except LoginError CredValue) :=
  if t == LoginType.PASSWORD then some (env.password_check authdict)
  else if t == LoginType.RECAPTCHA then some (env.recaptcha_check authdict clientip)
  else if t == LoginType.EMAIL_IDENTITY then some (env.threepid_check "email" authdict)
  else if t == LoginType.MSISDN then some (env.threepid_check "msisdn" authdict)
  else if t == LoginType.DUMMY then some (Except.ok (CredValue.bool true))
  else none

/-! ## Session store operations -/

/-- AuthHandler._get_session_info: resolve a live session by id, or create
and store a fresh one. The fresh unguessable identifier produced by
stringutils.random_string is supplied as the freshId parameter; the
retry-until-collision-free loop of the source is reflected by the
freshness hypotheses of the theorems below. -/
def getSessionInfo (st : AuthState) (freshId : String) (sid : Option String) :
    AuthState × Session :=
  match sid with
  | some s =>
    match dictGet s st.sessions with
    | some sess => (st, sess)
    | none =>
      let sess : Session := ⟨freshId, [], none, [], none⟩
      (⟨dictInsert freshId sess st.sessions⟩, sess)
  | none =>
    let sess : Session := ⟨freshId, [], none, [], none⟩
    (⟨dictInsert freshId sess st.sessions⟩, sess)

/-- AuthHandler._save_session: stamp last_used and store by id. -/
def saveSession (st : AuthState) (now : Nat) (session : Session) : AuthState :=
  let session := { session with last_used := some now }
  ⟨dictInsert session.id session st.sessions⟩

/-! ## The flow-description response -/

/-- AuthHandler._get_params_recaptcha. -/
def getParamsRecaptcha (cfg : AuthConfig) : List (String × J) :=
  [("public_key", J.s cfg.recaptcha_public_key)]

/-- The params dict of _auth_dict_for_flows: for every stage appearing in
any offered flow that has a parameter hook (only recaptcha) and is not
yet present, compute its public parameters. -/
def computeParams (cfg : AuthConfig) (flows : List (List String)) :
    List (String × J) :=
  flows.foldl
    (fun params f =>
      f.foldl
        (fun params stage =>
          if stage == LoginType.RECAPTCHA && (dictGet stage params).isNone then
            params ++ [(stage, J.obj (getParamsRecaptcha cfg))]
          else params)
        params)
    []

/-- AuthHandler._auth_dict_for_flows. -/
def authDictForFlows (cfg : AuthConfig) (flows : List (List String))
    (session : Session) : List (String × J) :=
  [("session", J.s session.id),
   ("flows", J.arr (flows.map (fun f => J.obj [("stages", J.arr (f.map J.s))]))),
   ("params", J.obj (computeParams cfg flows))]

/-! ## check_auth -/

/-- One flow is satisfied when every stage type it names has a recorded
credential: len(set(f) - set(creds.keys())) == 0. -/
def flowSatisfied (creds : List (String × CredValue)) (f : List String) : Bool :=
  f.all (fun stage => (dictGet stage creds).isSome)

/-- Some offered flow is fully satisfied. -/
def flowsSatisfied (flows : List (List String))
    (creds : List (String × CredValue)) : Bool :=
  flows.any (flowSatisfied creds)

/-- Embed the credential map into a response body. -/
def credValueToJ : CredValue → J
  | .bool b => J.b b
  | .str s => J.s s
  | .obj fields => J.obj (fields.map (fun kv => (kv.1, J.s kv.2)))

def credsToJ (creds : List (String × CredValue)) : List (String × J) :=
  creds.map (fun kv => (kv.1, credValueToJ kv.2))

/-- The result quadruple of check_auth: (authed, body, clientdict, session
id), with body the credential map on success and the flow-description
response otherwise. -/
structure CheckResult : Type where
  authed : Bool
  body : List (String × J)
  clientdict : List (String × J)
  sid : String

/-- The tail of check_auth from the flow evaluation on: return the
credentials if any flow is fully satisfied, else the flow description
with the completed list and the merged error dict. -/
def flowResult (cfg : AuthConfig) (st : AuthState) (flows : List (List String))
    (creds : List (String × CredValue)) (session : Session)
    (rest : List (String × J)) (errordict : List (String × J)) :
    AuthState × Except LoginError CheckResult :=
  if flowsSatisfied flows creds then
    (st, Except.ok ⟨true, credsToJ creds, rest, session.id⟩)
  else
    let ret := authDictForFlows cfg flows session
    let ret := dictInsert "completed" (J.arr (creds.map (fun kv => J.s kv.1))) ret
    let ret := dictUpdate ret errordict
    (st, Except.ok ⟨false, ret, rest, session.id⟩)

/-- The stage-dispatch step of check_auth (source lines 152 to 198):
dispatch the presented stage type to its checker (raising UNRECOGNIZED
when none is registered), record a truthy result in the session
credential map, re-raise an email-identity failure and fold any other
stage failure into the response, and finally evaluate flow completion. -/
def checkAuthStage (env : Env) (cfg : AuthConfig) (st2 : AuthState) (now : Nat)
    (flows : List (List String)) (session : Session) (rest : List (String × J))
    (authdict : AuthDict) (clientip : String) :
    AuthState × Except LoginError CheckResult :=
  let creds := session.creds
  match authdict.type with
  | none => flowResult cfg st2 flows creds session rest []
  | some login_type =>
    match runChecker env login_type authdict clientip with
    | none => (st2, Except.error ⟨400, "", Codes.UNRECOGNIZED⟩)
    | some (Except.ok result) =>
      if result.truthy then
        let creds := dictInsert login_type result creds
        let session := { session with creds := creds }
        let st3 := saveSession st2 now session
        flowResult cfg st3 flows creds session rest []
      else
        flowResult cfg st2 flows creds session rest []
    | some (Except.error e) =>
      if login_type = LoginType.EMAIL_IDENTITY then
        (st2, Except.error e)
      else
        flowResult cfg st2 flows creds session rest e.error_dict

/-- The client-parameter stash step of check_auth (source lines 129 to
142): persist freshly supplied client parameters onto the session, or
restore the previously stashed ones when only the session id was
supplied. -/
def stashClientDict (st1 : AuthState) (now : Nat) (session : Session)
    (rest : List (String × J)) : AuthState × Session × List (String × J) :=
  if rest.isEmpty then
    match session.clientdict with
    | some stored => (st1, session, stored)
    | none => (st1, session, rest)
  else
    (saveSession st1 now { session with clientdict := some rest },
     { session with clientdict := some rest }, rest)

/-- AuthHandler.check_auth: the User-Interactive Auth orchestrator.
Resolves or creates the session, stashes or restores the client
parameters, answers the probe request lacking a truthy auth block with
the flow description, and otherwise runs the stage-dispatch step
checkAuthStage. -/
def check_auth (env : Env) (cfg : AuthConfig) (st : AuthState) (freshId : String)
    (now : Nat) (flows : List (List String)) (clientdict : ClientDict)
    (clientip : String) : AuthState × Except LoginError CheckResult :=
  let sid : Option String :=
    match clientdict.auth with
    | some a => a.session
    | none => none
  let resolved := getSessionInfo st freshId sid
  let st1 := resolved.1
  let session := resolved.2
  let stashed := stashClientDict st1 now session clientdict.rest
  let st2 := stashed.1
  let session := stashed.2.1
  let rest := stashed.2.2
  let authTruthy :=
    match clientdict.auth with
    | some a => a.truthy
    | none => false
  if authTruthy = false then
    (st2, Except.ok ⟨false, authDictForFlows cfg flows session, rest, session.id⟩)
  else
    let authdict := clientdict.auth.getD ⟨none, none, []⟩
    checkAuthStage env cfg st2 now flows session rest authdict clientip

/-- AuthHandler.add_oob_auth: record the result of out-of-band (fallback)
authentication into an existing auth session. -/
def add_oob_auth (env : Env) (st : AuthState) (freshId : String) (now : Nat)
    (stagetype : String) (authdict : AuthDict) (clientip : String) :
    AuthState × Except LoginError Bool :=
  if checkerRegistered stagetype = false then
    (st, Except.error ⟨400, "", Codes.MISSING_PARAM⟩)
  else
    match authdict.session with
    | none => (st, Except.error ⟨400, "", Codes.MISSING_PARAM⟩)
    | some sid =>
      let resolved := getSessionInfo st freshId (some sid)
      let st1 := resolved.1
      let sess := resolved.2
      match runChecker env stagetype authdict clientip with
      | none =>
        -- unreachable: guarded by checkerRegistered above
        (st1, Except.error ⟨400, "", Codes.UNRECOGNIZED⟩)
      | some (Except.ok result) =>
        if result.truthy then
          let sess := { sess with creds := dictInsert stagetype result sess.creds }
          (saveSession st1 now sess, Except.ok true)
        else
          (st1, Except.ok false)
      | some (Except.error e) => (st1, Except.error e)

/-! ## Password hashing (AuthHandler.hash / AuthHandler.validate_hash) -/

/-- The primitives of the external bcrypt library used by the hashing
adapter. hashpw digests a password with a salt (or with a previous
digest, which embeds its own salt); gensalt draws a fresh salt for a
cost factor. Their algebraic contract appears as hypotheses of the
round-trip theorem. -/
structure BcryptLib : Type where
  hashpw : String → String → String
  gensalt : Nat → String

/-- The configuration the hashing adapter reads. -/
structure HashConfig : Type where
  password_pepper : String
  bcrypt_rounds : Nat

/-- AuthHandler.hash: a salted digest of the password concatenated with
the server-wide pepper. -/
def hashPassword (lib : BcryptLib) (cfg : HashConfig) (password : String) : String :=
  lib.hashpw (password ++ cfg.password_pepper) (lib.gensalt cfg.bcrypt_rounds)

/-- AuthHandler.validate_hash: recompute with the stored digest as salt
and compare; a falsy (absent or empty) stored hash yields false rather
than an error. -/
def validate_hash (lib : BcryptLib) (cfg : HashConfig) (password : String)
    (stored_hash : Option String) : Bool :=
  match stored_hash with
  | some h =>
    if h.isEmpty then false
    else lib.hashpw (password ++ cfg.password_pepper) h == h
  | none => false

/-! ## Case-insensitive identity resolution -/

/-- Modelled from the spec: the persistent user store lookup
store.get_users_by_id_case_insensitive (an external collaborator, not in
src/) returns the map of stored user ids matching the query up to case,
with their password hashes. -/
def get_users_by_id_case_insensitive (store : List (String × String))
    (user_id : String) : List (String × String) :=
  store.filter (fun row => row.1.toLower == user_id.toLower)

/-- AuthHandler._find_user_id_and_pwd_hash: exactly one (possibly
inexact) match is returned as is; among several matches only an exact
one is returned; otherwise None. -/
def find_user_id_and_pwd_hash (store : List (String × String))
    (user_id : String) : Option (String × String) :=
  let user_infos := get_users_by_id_case_insensitive store user_id
  if user_infos.isEmpty then none
  else if user_infos.length == 1 then user_infos.head?
  else
    match dictGet user_id user_infos with
    | some pwd_hash => some (user_id, pwd_hash)
    | none => none

/-- AuthHandler._check_local_password: case-insensitive lookup plus hash
verification; None on unknown user or bad password. -/
def check_local_password (lib : BcryptLib) (hcfg : HashConfig)
    (store : List (String × String)) (user_id password : String) :
    Option String :=
  match find_user_id_and_pwd_hash store user_id with
  | none => none
  | some (canonical_id, password_hash) =>
    if validate_hash lib hcfg password (some password_hash) then some canonical_id
    else none

/-! ## validate_login and the provider chain -/

/-- The failures validate_login can raise, by taxonomy. -/
inductive LoginFailure : Type where
  | passwordDisabled
  | missingPassword
  | missingParams (login_type : String) (missing_fields : List String)
  | unknownLoginType (login_type : Option String)
  | invalidCredentials
deriving DecidableEq

/-- The HTTP status each failure is raised with in the source. -/
def LoginFailure.httpCode : LoginFailure → Nat
  | .invalidCredentials => 403
  | _ => 400

/-- The message each failure is raised with in the source. -/
def LoginFailure.message : LoginFailure → String
  | .passwordDisabled => "Password login has been disabled."
  | .missingPassword => "Missing parameter: password"
  | .missingParams lt fs =>
    "Missing parameters for login type " ++ lt ++ ": " ++ String.intercalate ", " fs
  | .unknownLoginType lt =>
    "Unknown login type " ++ (match lt with | some t => t | none => "None")
  | .invalidCredentials => "Invalid password"

/-- What a provider custom check_auth call returns: nothing, a bare user
id, or a pair of user id and post-login callback. -/
inductive CheckAuthRes : Type where
  | nothing
  | bare (user : String)
  | pair (user : String) (callback : Option Unit)

/-- Python truthiness plus the bare-string normalization of the source:
a falsy result is skipped, a bare id is paired with an absent callback. -/
def CheckAuthRes.norm : CheckAuthRes → Option (String × Option Unit)
  | .nothing => none
  | .bare user => if user.isEmpty then none else some (user, none)
  | .pair user callback => some (user, callback)

/-- A pluggable password provider with optional capabilities: absent
fields model absent attributes (hasattr checks in the source). -/
structure Provider : Type where
  check_password : Option (String → String → Bool)
  get_supported_login_types : Option (List (String × List String))
  check_auth : Option (String → String → List (String × String) → CheckAuthRes)

/-- The outcome of walking the provider list: a provider match, or
exhaustion together with the accumulated known_login_type flag. -/
inductive ChainResult : Type where
  | found (user : String) (callback : Option Unit)
  | exhausted (known : Bool)
deriving DecidableEq

/-- The first per-provider step of the loop in validate_login: when the
provider has a check_password capability and the submitted type is the
password type, the type becomes known and a positive password check
yields the qualified user id. Returns the updated known_login_type flag
and the optional early result. -/
def providerStep1 (provider : Provider) (qualified_user_id password : String)
    (login_type : Option String) (known : Bool) :
    Bool × Option (String × Option Unit) :=
  match provider.check_password with
  | some cp =>
    if login_type = some LoginType.PASSWORD then
      (true,
       if cp qualified_user_id password then some (qualified_user_id, none)
       else none)
    else (known, none)
  | none => (known, none)

/-- The provider loop of validate_login: each provider is asked first via
check_password (password type only), then via its declared custom login
types, where all missing required fields are collected and reported
together; first success wins; a provider lacking a capability is
skipped. -/
def providerChain (qualified_user_id username password : String)
    (login_type : Option String) (login_submission : List (String × String)) :
    List Provider → Bool → Except LoginFailure ChainResult
  | [], known => Except.ok (ChainResult.exhausted known)
  | provider :: restProviders, known =>
    let step1 := providerStep1 provider qualified_user_id password login_type known
    match step1.2 with
    | some r => Except.ok (ChainResult.found r.1 r.2)
    | none =>
      let known1 := step1.1
      match provider.get_supported_login_types, provider.check_auth with
      | some supported, some ca =>
        match login_type with
        | some lt =>
          match dictGet lt supported with
          | some login_fields =>
            let missing_fields :=
              login_fields.filter (fun f => (dictGet f login_submission).isNone)
            let login_dict :=
              login_fields.filterMap
                (fun f => (dictGet f login_submission).map (fun v => (f, v)))
            if missing_fields.isEmpty then
              match (ca username lt login_dict).norm with
              | some r => Except.ok (ChainResult.found r.1 r.2)
              | none =>
                providerChain qualified_user_id username password login_type
                  login_submission restProviders true
            else
              Except.error (LoginFailure.missingParams lt missing_fields)
          | none =>
            providerChain qualified_user_id username password login_type
              login_submission restProviders known1
        | none =>
          providerChain qualified_user_id username password login_type
            login_submission restProviders known1
      | _, _ =>
        providerChain qualified_user_id username password login_type
          login_submission restProviders known1

/-- Configuration read by validate_login. -/
structure LoginConfig : Type where
  password_enabled : Bool
  hostname : String

/-- Modelled from the spec: identifier normalization (UserID.to_string of
synapse.types, outside src/) qualifies a bare localpart against the
server hostname. -/
def qualifyUserId (cfg : LoginConfig) (username : String) : String :=
  if username.startsWith "@" then username
  else "@" ++ username ++ ":" ++ cfg.hostname

/-- AuthHandler.validate_login: qualify the identifier, enforce the
password-enabled and password-present preconditions for the password
type, walk the provider chain, fall back to the local credential store
for the password type, and distinguish unknown-login-type from
invalid-credentials failures. -/
def validate_login (cfg : LoginConfig) (lib : BcryptLib) (hcfg : HashConfig)
    (providers : List Provider) (store : List (String × String))
    (username : String) (login_submission : List (String × String)) :
    Except LoginFailure (String × Option Unit) :=
  let qualified_user_id := qualifyUserId cfg username
  let login_type := dictGet "type" login_submission
  let password := (dictGet "password" login_submission).getD ""
  if login_type = some LoginType.PASSWORD ∧ cfg.password_enabled = false then
    Except.error LoginFailure.passwordDisabled
  else if login_type = some LoginType.PASSWORD ∧ password.isEmpty then
    Except.error LoginFailure.missingPassword
  else
    match providerChain qualified_user_id username password login_type
        login_submission providers false with
    | Except.error e => Except.error e
    | Except.ok (ChainResult.found user callback) => Except.ok (user, callback)
    | Except.ok (ChainResult.exhausted known) =>
      if login_type = some LoginType.PASSWORD then
        match check_local_password lib hcfg store qualified_user_id password with
        | some canonical_id =>
          if canonical_id.isEmpty then Except.error LoginFailure.invalidCredentials
          else Except.ok (canonical_id, none)
        | none => Except.error LoginFailure.invalidCredentials
      else if known = false then
        Except.error (LoginFailure.unknownLoginType login_type)
      else
        Except.error LoginFailure.invalidCredentials

/-! ## Token issuance (MacaroonGeneartor) -/

/-- A macaroon as far as this module constructs one: a location, an
identifier, a signing key and an ordered caveat list. Serialization is
performed by the external pymacaroons library and is not modelled. -/
structure Macaroon : Type where
  location : String
  identifier : String
  key : String
  caveats : List String

/-- pymacaroons Macaroon.add_first_party_caveat appends to the caveat
list. -/
def Macaroon.add_first_party_caveat (m : Macaroon) (caveat : String) : Macaroon :=
  { m with caveats := m.caveats ++ [caveat] }

/-- Configuration of the macaroon generator. -/
structure MacaroonConfig : Type where
  server_name : String
  macaroon_secret_key : String

/-- MacaroonGeneartor._generate_base_macaroon: the base token bound to
gen = 1 and the user id. -/
def generate_base_macaroon (cfg : MacaroonConfig) (user_id : String) : Macaroon :=
  let m : Macaroon := ⟨cfg.server_name, "key", cfg.macaroon_secret_key, []⟩
  let m := m.add_first_party_caveat "gen = 1"
  m.add_first_party_caveat ("user_id = " ++ user_id)

/-- MacaroonGeneartor.generate_short_term_login_token: the base macaroon
plus a type = login caveat and a deadline caveat at the current clock
time plus the caller-supplied duration (default two minutes). -/
def generate_short_term_login_token (cfg : MacaroonConfig) (now : Nat)
    (user_id : String) (duration_in_ms : Nat := 2 * 60 * 1000) : Macaroon :=
  let m := generate_base_macaroon cfg user_id
  let m := m.add_first_party_caveat "type = login"
  let expiry := now + duration_in_ms
  m.add_first_party_caveat ("time < " ++ toString expiry)

/-! ## Auxiliary predicates and concrete fixtures -/

/-- The session store is keyed consistently: every stored session carries
the id it is stored under. The source maintains this at every store
write. -/
def WellFormed (st : AuthState) : Prop :=
  ∀ s sess, dictGet s st.sessions = some sess → sess.id = s

/-- The credential map of a session only grows: every recorded stage
type stays recorded. -/
def credsGrow (old new : List (String × CredValue)) : Prop :=
  ∀ k, (dictGet k old).isSome = true → (dictGet k new).isSome = true

/-- A concrete environment whose external checkers all fail, for the
concrete scenarios below. -/
def env0 : Env :=
  ⟨fun _ => Except.error ⟨401, "", Codes.UNAUTHORIZED⟩,
   fun _ _ => Except.error ⟨401, "", Codes.UNAUTHORIZED⟩,
   fun _ _ => Except.error ⟨401, "", Codes.UNAUTHORIZED⟩⟩

/-- A concrete server configuration. -/
def cfg0 : AuthConfig := ⟨"pubkey"⟩

/-- The empty session store. -/
def st0 : AuthState := ⟨[]⟩

/-- A concrete bcrypt model satisfying the library contract: the digest
determines the peppered input and ignores the salt. -/
def witLib : BcryptLib := ⟨fun x _ => "H" ++ x, fun _ => "salt"⟩

/-- A concrete hashing configuration. -/
def witHashCfg : HashConfig := ⟨"pepper", 12⟩

/-- A one-session store entry for concrete scenarios. -/
def sessW : Session :=
  Session.mk "s1" [(LoginType.PASSWORD, CredValue.str "@u:srv")] none [] none

/-- The store holding sessW. -/
def stW : AuthState := ⟨[("s1", sessW)]⟩

/-- A client payload presenting the dummy stage against session s1. -/
def cdW : ClientDict := ⟨some ⟨some "s1", some LoginType.DUMMY, []⟩, []⟩

/-- A provider declaring the custom login type m.login.jwt with no
required fields whose custom check never matches. -/
def provW : Provider :=
  ⟨none, some [("m.login.jwt", [])], some (fun _ _ _ => CheckAuthRes.nothing)⟩

/-! # Lemmas -/

theorem dictGet_dictInsert_self {α : Type} (k : String) (v : α)
    (d : List (String × α)) : dictGet k (dictInsert k v d) = some v := by
  induction d with
  | nil => simp [dictGet, dictInsert]
  | cons hd tl ih =>
    by_cases h : k = hd.1
    · simp [dictInsert, h, dictGet]
    · simp [dictInsert, h, dictGet, ih]

theorem dictGet_dictInsert_ne {α : Type} {k k' : String} (v : α)
    (d : List (String × α)) (h : k ≠ k') :
    dictGet k (dictInsert k' v d) = dictGet k d := by
  induction d with
  | nil => simp [dictGet, dictInsert, h]
  | cons hd tl ih =>
    by_cases h' : k' = hd.1
    · subst h'
      simp [dictInsert, dictGet, h]
    · by_cases h'' : k = hd.1
      · simp [dictInsert, h', dictGet, h'']
      · simp [dictInsert, h', dictGet, h'', ih]

theorem dictGet_dictInsert_isSome {α : Type} {k : String} (k' : String) (v : α)
    (d : List (String × α)) (h : (dictGet k d).isSome = true) :
    (dictGet k (dictInsert k' v d)).isSome = true := by
  by_cases hk : k = k'
  · subst hk
    simp [dictGet_dictInsert_self]
  · rw [dictGet_dictInsert_ne v d hk]
    exact h

theorem mem_of_dictGet_eq_some {α : Type} {k : String} {v : α}
    {d : List (String × α)} (h : dictGet k d = some v) : (k, v) ∈ d := by
  induction d with
  | nil => simp [dictGet] at h
  | cons hd tl ih =>
    by_cases hk : k = hd.1
    · simp [dictGet, hk] at h
      subst hk
      subst h
      simp
    · simp [dictGet, hk] at h
      exact List.mem_cons_of_mem _ (ih h)

theorem dictGet_eq_some_of_mem_nodup {α : Type} {k : String} {v : α}
    {d : List (String × α)} (hnd : (d.map Prod.fst).Nodup) (h : (k, v) ∈ d) :
    dictGet k d = some v := by
  induction d with
  | nil => simp at h
  | cons hd tl ih =>
    simp only [List.map_cons, List.nodup_cons] at hnd
    rcases List.mem_cons.mp h with heq | hmem
    · subst heq
      simp [dictGet]
    · have hk : k ≠ hd.1 := by
        intro hkk
        exact hnd.1 (hkk ▸ List.mem_map_of_mem Prod.fst hmem)
      simp [dictGet, hk]
      exact ih hnd.2 hmem

/-! ## Session store lemmas -/

theorem saveSession_lookup (st : AuthState) (now : Nat) (session : Session) :
    dictGet session.id (saveSession st now session).sessions =
      some { session with last_used := some now } := by
  simp [saveSession, dictGet_dictInsert_self]

theorem saveSession_preserves {s : String} (st : AuthState) (now : Nat)
    (session : Session) (h : s ≠ session.id) :
    dictGet s (saveSession st now session).sessions = dictGet s st.sessions := by
  simp [saveSession]
  exact dictGet_dictInsert_ne _ _ h

theorem wf_saveSession {st : AuthState} (now : Nat) (session : Session)
    (hwf : WellFormed st) : WellFormed (saveSession st now session) := by
  intro s sess h
  by_cases hs : s = session.id
  · subst hs
    rw [saveSession_lookup] at h
    cases h
    rfl
  · rw [saveSession_preserves st now session hs] at h
    exact hwf s sess h

theorem getSessionInfo_lookup {st st1 : AuthState} {freshId : String}
    {sid : Option String} {sess : Session} (hwf : WellFormed st)
    (h : getSessionInfo st freshId sid = (st1, sess)) :
    dictGet sess.id st1.sessions = some sess := by
  unfold getSessionInfo at h
  split at h
  · rename_i s
    split at h
    · rename_i stored hl
      cases h
      rw [hwf s sess hl]
      exact hl
    · cases h
      simp [dictGet_dictInsert_self]
  · cases h
    simp [dictGet_dictInsert_self]

theorem wf_getSessionInfo {st st1 : AuthState} {freshId : String}
    {sid : Option String} {sess : Session} (hwf : WellFormed st)
    (h : getSessionInfo st freshId sid = (st1, sess)) : WellFormed st1 := by
  have hins : WellFormed ⟨dictInsert freshId ⟨freshId, [], none, [], none⟩ st.sessions⟩ := by
    intro s' sess' h'
    by_cases hs : s' = freshId
    · subst hs
      rw [dictGet_dictInsert_self] at h'
      cases h'
      rfl
    · rw [dictGet_dictInsert_ne _ _ hs] at h'
      exact hwf s' sess' h'
  unfold getSessionInfo at h
  split at h
  · split at h
    · cases h
      exact hwf
    · cases h
      exact hins
  · cases h
    exact hins

theorem getSessionInfo_preserves {st st1 : AuthState} {freshId : String}
    {sid : Option String} {sess : Session} {s : String} {old : Session}
    (hfresh : dictGet freshId st.sessions = none)
    (hold : dictGet s st.sessions = some old)
    (h : getSessionInfo st freshId sid = (st1, sess)) :
    dictGet s st1.sessions = some old := by
  have hne : s ≠ freshId := by
    intro he
    rw [he, hfresh] at hold
    cases hold
  unfold getSessionInfo at h
  split at h
  · split at h
    · cases h
      exact hold
    · cases h
      rw [dictGet_dictInsert_ne _ _ hne]
      exact hold
  · cases h
    rw [dictGet_dictInsert_ne _ _ hne]
    exact hold

/-! ## Flow evaluation and stage dispatch lemmas -/

theorem flowResult_state (cfg : AuthConfig) (st : AuthState)
    (flows : List (List String)) (creds : List (String × CredValue))
    (session : Session) (rest : List (String × J)) (ed : List (String × J)) :
    (flowResult cfg st flows creds session rest ed).1 = st := by
  unfold flowResult
  split <;> rfl

theorem flowResult_spec {cfg : AuthConfig} {st : AuthState}
    {flows : List (List String)} {creds : List (String × CredValue)}
    {session : Session} {rest ed : List (String × J)} {st' : AuthState}
    {r : CheckResult} {sess : Session}
    (hlook : dictGet session.id st.sessions = some sess)
    (hcreds : sess.creds = creds)
    (h : flowResult cfg st flows creds session rest ed = (st', Except.ok r)) :
    ∃ s2, dictGet r.sid st'.sessions = some s2 ∧
      (r.authed = true ↔ flowsSatisfied flows s2.creds = true) ∧
      (r.authed = true → r.body = credsToJ s2.creds) := by
  unfold flowResult at h
  split at h
  · rename_i hsat
    cases h
    refine ⟨sess, hlook, ?_, ?_⟩
    · simp only [hcreds, hsat]
    · intro
      rw [hcreds]
  · rename_i hsat
    cases h
    refine ⟨sess, hlook, ?_, ?_⟩
    · rw [hcreds]
      simp only [Bool.not_eq_true] at hsat
      simp [hsat]
    · intro hcontra
      cases hcontra

theorem checkAuthStage_spec {env : Env} {cfg : AuthConfig} {st2 : AuthState}
    {now : Nat} {flows : List (List String)} {session : Session}
    {rest : List (String × J)} {a : AuthDict} {ip : String} {st' : AuthState}
    {r : CheckResult} {sess2 : Session}
    (hlook : dictGet session.id st2.sessions = some sess2)
    (hcreds : sess2.creds = session.creds)
    (h : checkAuthStage env cfg st2 now flows session rest a ip =
      (st', Except.ok r)) :
    ∃ sess, dictGet r.sid st'.sessions = some sess ∧
      (r.authed = true ↔ flowsSatisfied flows sess.creds = true) ∧
      (r.authed = true → r.body = credsToJ sess.creds) := by
  unfold checkAuthStage at h
  split at h
  · exact flowResult_spec hlook hcreds h
  · rename_i login_type hlt
    split at h
    · simp at h
    · rename_i result hrc
      split at h
      · exact flowResult_spec (saveSession_lookup st2 now _) rfl h
      · exact flowResult_spec hlook hcreds h
    · rename_i e hrc
      split at h
      · simp at h
      · exact flowResult_spec hlook hcreds h

/-! ## Client-parameter stash lemmas -/

theorem stashClientDict_session (st1 : AuthState) (now : Nat) (session1 : Session)
    (rest : List (String × J)) :
    (stashClientDict st1 now session1 rest).2.1.id = session1.id ∧
    (stashClientDict st1 now session1 rest).2.1.creds = session1.creds := by
  unfold stashClientDict
  split
  · split <;> exact ⟨rfl, rfl⟩
  · exact ⟨rfl, rfl⟩

theorem stashClientDict_lookup (st1 : AuthState) (now : Nat) (session1 : Session)
    (rest : List (String × J))
    (hlook1 : dictGet session1.id st1.sessions = some session1) :
    ∃ sess2, dictGet (stashClientDict st1 now session1 rest).2.1.id
        (stashClientDict st1 now session1 rest).1.sessions = some sess2 ∧
      sess2.creds = (stashClientDict st1 now session1 rest).2.1.creds := by
  unfold stashClientDict
  split
  · split <;> exact ⟨session1, hlook1, rfl⟩
  · exact ⟨_, saveSession_lookup st1 now _, rfl⟩

theorem stashClientDict_wf (st1 : AuthState) (now : Nat) (session1 : Session)
    (rest : List (String × J)) (hwf1 : WellFormed st1) :
    WellFormed (stashClientDict st1 now session1 rest).1 := by
  unfold stashClientDict
  split
  · split <;> exact hwf1
  · exact wf_saveSession now _ hwf1

theorem stashClientDict_preserves (st1 : AuthState) (now : Nat)
    (session1 : Session) (rest : List (String × J)) (sid : String)
    (sess : Session)
    (hpres : dictGet sid st1.sessions = some sess)
    (hrel : session1.id = sid → session1 = sess) :
    ∃ cur, dictGet sid (stashClientDict st1 now session1 rest).1.sessions =
        some cur ∧
      cur.creds = sess.creds ∧
      (sid = (stashClientDict st1 now session1 rest).2.1.id →
        cur.creds = (stashClientDict st1 now session1 rest).2.1.creds) := by
  unfold stashClientDict
  split
  · have hid : sid = session1.id → sess.creds = session1.creds := fun hs =>
      congrArg Session.creds (hrel hs.symm).symm
    split <;> exact ⟨sess, hpres, rfl, hid⟩
  · by_cases hs : sid = session1.id
    · have hrel' : session1 = sess := hrel hs.symm
      refine ⟨{ session1 with clientdict := some rest, last_used := some now },
        ?_, ?_, fun _ => rfl⟩
      · rw [hs]
        exact saveSession_lookup st1 now { session1 with clientdict := some rest }
      · show session1.creds = sess.creds
        exact congrArg Session.creds hrel'
    · exact ⟨sess,
        (saveSession_preserves st1 now { session1 with clientdict := some rest }
          hs).trans hpres,
        rfl, fun hcontra => absurd hcontra hs⟩

/-- The stage dispatch reached by a truthy auth block: check_auth equals
checkAuthStage on a state that stores the resolved session with its
credential map intact. -/
theorem check_auth_eq_stage (env : Env) (cfg : AuthConfig) (st : AuthState)
    (freshId : String) (now : Nat) (flows : List (List String))
    (cd : ClientDict) (ip : String) (a : AuthDict)
    (hauth : cd.auth = some a) (htr : a.truthy = true) (hwf : WellFormed st) :
    ∃ st2 session sess2 rest,
      check_auth env cfg st freshId now flows cd ip =
        checkAuthStage env cfg st2 now flows session rest a ip ∧
      dictGet session.id st2.sessions = some sess2 ∧
      sess2.creds = session.creds ∧
      WellFormed st2 := by
  obtain ⟨⟨st1, session1⟩, hgs⟩ :
      ∃ p, getSessionInfo st freshId a.session = p := ⟨_, rfl⟩
  have hwf1 : WellFormed st1 := wf_getSessionInfo hwf hgs
  have hlook1 : dictGet session1.id st1.sessions = some session1 :=
    getSessionInfo_lookup hwf hgs
  obtain ⟨sess2, hl2, hc2⟩ := stashClientDict_lookup st1 now session1 cd.rest hlook1
  simp only [check_auth, hauth, hgs, Option.getD_some]
  split
  · rename_i hcontra
    rw [htr] at hcontra
    cases hcontra
  · exact ⟨_, _, sess2, _, rfl, hl2, hc2, stashClientDict_wf st1 now session1 cd.rest hwf1⟩

/-- C1: for every list of flows and every session presented through a
truthy auth block, check_auth reports authentication complete, returning
the credential map of the session, exactly when some flow in the list
has its full stage-type set contained in the stage types recorded in the
credential map of that session after the presented stage was processed;
the order in which the stages were completed is irrelevant, only the set
of recorded stage types matters. -/
theorem check_auth_completes_iff_flow_satisfied (env : Env) (cfg : AuthConfig)
    (st : AuthState) (freshId : String) (now : Nat)
    (flows : List (List String)) (cd : ClientDict) (ip : String) (a : AuthDict)
    (st' : AuthState) (r : CheckResult)
    (hwf : WellFormed st)
    (hauth : cd.auth = some a)
    (htr : a.truthy = true)
    (h : check_auth env cfg st freshId now flows cd ip = (st', Except.ok r)) :
    ∃ sess, dictGet r.sid st'.sessions = some sess ∧
      (r.authed = true ↔ flowsSatisfied flows sess.creds = true) ∧
      (r.authed = true → r.body = credsToJ sess.creds) := by
  obtain ⟨st2, session, sess2, rest, heq, hlook, hcreds, hwf2⟩ :=
    check_auth_eq_stage env cfg st freshId now flows cd ip a hauth htr hwf
  rw [heq] at h
  exact checkAuthStage_spec hlook hcreds h

theorem getSessionInfo_resolved {st st1 : AuthState} {freshId : String}
    {sid? : Option String} {sess1 : Session} (hwf : WellFormed st)
    (hfresh : dictGet freshId st.sessions = none)
    (h : getSessionInfo st freshId sid? = (st1, sess1)) :
    ∀ s old, dictGet s st.sessions = some old → sess1.id = s → sess1 = old := by
  unfold getSessionInfo at h
  split at h
  · rename_i s0
    split at h
    · rename_i stored hl
      cases h
      intro s old hold hid
      have hs0 : sess1.id = s0 := hwf s0 sess1 hl
      rw [hs0] at hid
      subst hid
      rw [hl] at hold
      exact (Option.some_inj.mp hold)
    · cases h
      intro s old hold hid
      exfalso
      have hid' : freshId = s := hid
      subst hid'
      rw [hfresh] at hold
      cases hold
  · cases h
    intro s old hold hid
    exfalso
    have hid' : freshId = s := hid
    subst hid'
    rw [hfresh] at hold
    cases hold

/-- The only credential-map mutation in the stage-dispatch step is the
insert-or-overwrite of the presented stage type. -/
theorem checkAuthStage_creds (env : Env) (cfg : AuthConfig) (st2 : AuthState)
    (now : Nat) (flows : List (List String)) (session : Session)
    (rest : List (String × J)) (a : AuthDict) (ip : String)
    (sid : String) (cur : Session)
    (hcur : dictGet sid st2.sessions = some cur)
    (hid : sid = session.id → cur.creds = session.creds) :
    ∃ fin, dictGet sid
        (checkAuthStage env cfg st2 now flows session rest a ip).1.sessions =
        some fin ∧
      credsGrow cur.creds fin.creds ∧
      (∀ k v, dictGet k cur.creds = some v → a.type ≠ some k →
        dictGet k fin.creds = some v) := by
  unfold checkAuthStage
  split
  · rw [flowResult_state]
    exact ⟨cur, hcur, fun k hk => hk, fun k v hv _ => hv⟩
  · rename_i login_type hlt
    split
    · exact ⟨cur, hcur, fun k hk => hk, fun k v hv _ => hv⟩
    · rename_i result hrc
      split
      · rw [flowResult_state]
        by_cases hs : sid = session.id
        · rw [hs]
          refine ⟨_,
            saveSession_lookup st2 now
              { session with creds := dictInsert login_type result session.creds },
            fun k hk => ?_, fun k v hv hne => ?_⟩
          · show (dictGet k (dictInsert login_type result session.creds)).isSome = true
            rw [← hid hs]
            exact dictGet_dictInsert_isSome login_type result cur.creds hk
          · show dictGet k (dictInsert login_type result session.creds) = some v
            have hkt : k ≠ login_type := fun he => hne (he ▸ hlt)
            rw [dictGet_dictInsert_ne result session.creds hkt, ← hid hs]
            exact hv
        · exact ⟨cur,
            (saveSession_preserves st2 now
              { session with creds := dictInsert login_type result session.creds }
              hs).trans hcur,
            fun k hk => hk, fun k v hv _ => hv⟩
      · rw [flowResult_state]
        exact ⟨cur, hcur, fun k hk => hk, fun k v hv _ => hv⟩
    · rename_i e hrc
      split
      · exact ⟨cur, hcur, fun k hk => hk, fun k v hv _ => hv⟩
      · rw [flowResult_state]
        exact ⟨cur, hcur, fun k hk => hk, fun k v hv _ => hv⟩

/-- C2: the credential map of a session only grows. Both mutating
operations, check_auth recording a presented stage result and
add_oob_auth recording an out-of-band result, keep every previously
recorded stage type present (first conjunct of each part: presence is
preserved for all keys), and only the presented stage type can have its
entry overwritten (second conjunct: every other recorded entry keeps its
exact value), so replaying a previously satisfied stage leaves all other
recorded results in place. -/
theorem session_credentials_only_grow :
    (∀ env cfg st freshId now flows cd ip,
      WellFormed st → dictGet freshId st.sessions = none →
      ∀ sid sess, dictGet sid st.sessions = some sess →
        ∃ fin, dictGet sid
            (check_auth env cfg st freshId now flows cd ip).1.sessions =
            some fin ∧
          credsGrow sess.creds fin.creds ∧
          (∀ k v, dictGet k sess.creds = some v →
            cd.auth.bind AuthDict.type ≠ some k →
            dictGet k fin.creds = some v)) ∧
    (∀ env st freshId now stagetype authdict ip,
      WellFormed st → dictGet freshId st.sessions = none →
      ∀ sid sess, dictGet sid st.sessions = some sess →
        ∃ fin, dictGet sid
            (add_oob_auth env st freshId now stagetype authdict ip).1.sessions =
            some fin ∧
          credsGrow sess.creds fin.creds ∧
          (∀ k v, dictGet k sess.creds = some v → k ≠ stagetype →
            dictGet k fin.creds = some v)) := by
  constructor
  · intro env cfg st freshId now flows cd ip hwf hfresh sid sess hsess
    rcases cd with ⟨auth?, cdrest⟩
    rcases auth? with _ | a
    · obtain ⟨⟨st1, session1⟩, hgs⟩ :
        ∃ p, getSessionInfo st freshId none = p := ⟨_, rfl⟩
      have hpres := getSessionInfo_preserves hfresh hsess hgs
      have hrel := getSessionInfo_resolved hwf hfresh hgs sid sess hsess
      obtain ⟨cur, hcur, hcc, hid⟩ :=
        stashClientDict_preserves st1 now session1 cdrest sid sess hpres hrel
      simp only [check_auth, hgs]
      split
      · exact ⟨cur, hcur, fun k hk => by rw [hcc]; exact hk,
          fun k v hv _ => by rw [hcc]; exact hv⟩
      · rename_i hcontra
        exact absurd trivial hcontra
    · obtain ⟨⟨st1, session1⟩, hgs⟩ :
        ∃ p, getSessionInfo st freshId a.session = p := ⟨_, rfl⟩
      have hpres := getSessionInfo_preserves hfresh hsess hgs
      have hrel := getSessionInfo_resolved hwf hfresh hgs sid sess hsess
      obtain ⟨cur, hcur, hcc, hid⟩ :=
        stashClientDict_preserves st1 now session1 cdrest sid sess hpres hrel
      simp only [check_auth, hgs, Option.getD_some]
      split
      · exact ⟨cur, hcur, fun k hk => by rw [hcc]; exact hk,
          fun k v hv _ => by rw [hcc]; exact hv⟩
      · obtain ⟨fin, hfin, hgrow, hpres'⟩ :=
          checkAuthStage_creds env cfg _ now flows _ _ a ip sid cur hcur hid
        refine ⟨fin, hfin, fun k hk => hgrow k (by rw [hcc]; exact hk),
          fun k v hv hne => hpres' k v (by rw [hcc]; exact hv) hne⟩
  · intro env st freshId now stagetype authdict ip hwf hfresh sid sess hsess
    unfold add_oob_auth
    split
    · exact ⟨sess, hsess, fun k hk => hk, fun k v hv _ => hv⟩
    · split
      · exact ⟨sess, hsess, fun k hk => hk, fun k v hv _ => hv⟩
      · rename_i sid0 hs0
        obtain ⟨⟨st1, sess1⟩, hgs⟩ :
          ∃ p, getSessionInfo st freshId (some sid0) = p := ⟨_, rfl⟩
        have hpres := getSessionInfo_preserves hfresh hsess hgs
        have hrel := getSessionInfo_resolved hwf hfresh hgs sid sess hsess
        simp only [hgs]
        split
        · exact ⟨sess, hpres, fun k hk => hk, fun k v hv _ => hv⟩
        · rename_i result hrc
          split
          · by_cases hs : sid = sess1.id
            · have hrel' : sess1 = sess := hrel hs.symm
              rw [hs]
              refine ⟨_,
                saveSession_lookup st1 now
                  { sess1 with creds := dictInsert stagetype result sess1.creds },
                fun k hk => ?_, fun k v hv hne => ?_⟩
              · show (dictGet k (dictInsert stagetype result sess1.creds)).isSome = true
                rw [hrel']
                exact dictGet_dictInsert_isSome stagetype result sess.creds hk
              · show dictGet k (dictInsert stagetype result sess1.creds) = some v
                rw [dictGet_dictInsert_ne result sess1.creds hne, hrel']
                exact hv
            · exact ⟨sess,
                (saveSession_preserves st1 now
                  { sess1 with creds := dictInsert stagetype result sess1.creds }
                  hs).trans hpres,
                fun k hk => hk, fun k v hv _ => hv⟩
          · exact ⟨sess, hpres, fun k hk => hk, fun k v hv _ => hv⟩
        · exact ⟨sess, hpres, fun k hk => hk, fun k v hv _ => hv⟩

/-- C1 witness: the dummy stage completing the single dummy flow. -/
theorem check_auth_completes_iff_flow_satisfied_witness :
    ∃ sess, dictGet "sessA"
        (AuthState.mk [("sessA",
          Session.mk "sessA" [(LoginType.DUMMY, CredValue.bool true)] none []
            (some 0))]).sessions = some sess ∧
      (true = true ↔ flowsSatisfied [[LoginType.DUMMY]] sess.creds = true) ∧
      (true = true → [(LoginType.DUMMY, J.b true)] = credsToJ sess.creds) :=
  check_auth_completes_iff_flow_satisfied env0 cfg0 st0 "sessA" 0
    [[LoginType.DUMMY]] ⟨some ⟨none, some LoginType.DUMMY, []⟩, []⟩ "ip"
    ⟨none, some LoginType.DUMMY, []⟩
    (AuthState.mk [("sessA",
      Session.mk "sessA" [(LoginType.DUMMY, CredValue.bool true)] none []
        (some 0))])
    (CheckResult.mk true [(LoginType.DUMMY, J.b true)] [] "sessA")
    (fun _ _ h => nomatch h) rfl rfl rfl

theorem stW_wf : WellFormed stW := by
  intro s sess h
  by_cases hs : s = "s1"
  · subst hs
    simp only [stW, dictGet, if_pos rfl] at h
    cases h
    rfl
  · simp only [stW, dictGet, if_neg hs] at h
    cases h

/-- C2 witness: a session holding a password credential keeps it across a
check_auth call presenting the dummy stage. -/
theorem session_credentials_only_grow_witness :
    ∃ fin, dictGet "s1"
        (check_auth env0 cfg0 stW "f1" 0 [[LoginType.DUMMY]] cdW "ip").1.sessions =
        some fin ∧
      credsGrow sessW.creds fin.creds ∧
      (∀ k v, dictGet k sessW.creds = some v →
        cdW.auth.bind AuthDict.type ≠ some k →
        dictGet k fin.creds = some v) :=
  session_credentials_only_grow.1 env0 cfg0 stW "f1" 0 [[LoginType.DUMMY]] cdW
    "ip" stW_wf rfl "s1" sessW rfl

/-- The email-identity carve-out at the stage-dispatch level: a checker
failure is re-raised for the email-possession type and folded into the
flow-description response for every other type. -/
theorem checkAuthStage_email_carveout (env : Env) (cfg : AuthConfig)
    (st2 : AuthState) (now : Nat) (flows : List (List String))
    (session : Session) (rest : List (String × J)) (a : AuthDict) (ip : String)
    (t : String) (e : LoginError)
    (htype : a.type = some t)
    (hch : runChecker env t a ip = some (Except.error e)) :
    (t = LoginType.EMAIL_IDENTITY →
      (checkAuthStage env cfg st2 now flows session rest a ip).2 =
        Except.error e) ∧
    (t ≠ LoginType.EMAIL_IDENTITY →
      ∀ st' r, checkAuthStage env cfg st2 now flows session rest a ip =
          (st', Except.ok r) →
        r.authed = false →
        dictGet "errcode" r.body = some (J.s e.errcode) ∧
        dictGet "error" r.body = some (J.s e.msg)) := by
  constructor
  · intro hemail
    simp only [checkAuthStage, htype, hch]
    rw [if_pos hemail]
  · intro hne st' r h hauthed
    simp only [checkAuthStage, htype, hch] at h
    rw [if_neg hne] at h
    unfold flowResult at h
    split at h
    · cases h
      cases hauthed
    · cases h
      have hupd : ∀ d : List (String × J),
          dictUpdate d (LoginError.error_dict e) =
            dictInsert "error" (J.s e.msg)
              (dictInsert "errcode" (J.s e.errcode) d) := fun d => rfl
      rw [hupd]
      constructor
      · rw [dictGet_dictInsert_ne _ _ (by decide : "errcode" ≠ "error")]
        exact dictGet_dictInsert_self _ _ _
      · exact dictGet_dictInsert_self _ _ _

/-- C4: when a stage checker raises a LoginError inside check_auth, the
field dictionary of the error (errcode and error) is merged into the
incomplete-auth response returned to the client, unless the presented
stage type is the email-possession type, in which case the error is
re-raised unchanged; this holds for every session store state, hence on
every attempt, including a second consecutive email failure in the same
session. -/
theorem email_identity_error_propagation (env : Env) (cfg : AuthConfig)
    (st : AuthState) (freshId : String) (now : Nat)
    (flows : List (List String)) (cd : ClientDict) (ip : String) (a : AuthDict)
    (t : String) (e : LoginError)
    (hwf : WellFormed st)
    (hauth : cd.auth = some a)
    (htype : a.type = some t)
    (hch : runChecker env t a ip = some (Except.error e)) :
    (t = LoginType.EMAIL_IDENTITY →
      (check_auth env cfg st freshId now flows cd ip).2 = Except.error e) ∧
    (t ≠ LoginType.EMAIL_IDENTITY →
      ∀ st' r, check_auth env cfg st freshId now flows cd ip =
          (st', Except.ok r) →
        r.authed = false →
        dictGet "errcode" r.body = some (J.s e.errcode) ∧
        dictGet "error" r.body = some (J.s e.msg)) := by
  have htr : a.truthy = true := by
    simp [AuthDict.truthy, htype]
  obtain ⟨st2, session, sess2, rest, heq, _, _, _⟩ :=
    check_auth_eq_stage env cfg st freshId now flows cd ip a hauth htr hwf
  rw [heq]
  exact checkAuthStage_email_carveout env cfg st2 now flows session rest a ip
    t e htype hch

/-- C4 witness: the email checker of the concrete environment fails and
the failure is re-raised by check_auth. -/
theorem email_identity_error_propagation_witness :
    (LoginType.EMAIL_IDENTITY = LoginType.EMAIL_IDENTITY →
      (check_auth env0 cfg0 st0 "f" 0 []
          ⟨some ⟨none, some LoginType.EMAIL_IDENTITY, []⟩, []⟩ "ip").2 =
        Except.error ⟨401, "", Codes.UNAUTHORIZED⟩) ∧
    (LoginType.EMAIL_IDENTITY ≠ LoginType.EMAIL_IDENTITY →
      ∀ st' r, check_auth env0 cfg0 st0 "f" 0 []
          ⟨some ⟨none, some LoginType.EMAIL_IDENTITY, []⟩, []⟩ "ip" =
          (st', Except.ok r) →
        r.authed = false →
        dictGet "errcode" r.body = some (J.s Codes.UNAUTHORIZED) ∧
        dictGet "error" r.body = some (J.s "")) :=
  email_identity_error_propagation env0 cfg0 st0 "f" 0 []
    ⟨some ⟨none, some LoginType.EMAIL_IDENTITY, []⟩, []⟩ "ip"
    ⟨none, some LoginType.EMAIL_IDENTITY, []⟩ LoginType.EMAIL_IDENTITY
    ⟨401, "", Codes.UNAUTHORIZED⟩ (fun _ _ h => nomatch h) rfl rfl rfl

/-- If no checker is registered for a stage type, the dispatch table
yields nothing. -/
theorem runChecker_eq_none {env : Env} {t : String} {a : AuthDict} {ip : String}
    (h : checkerRegistered t = false) : runChecker env t a ip = none := by
  unfold checkerRegistered at h
  simp only [Bool.or_eq_false_iff] at h
  obtain ⟨⟨⟨⟨h1, h2⟩, h3⟩, h4⟩, h5⟩ := h
  unfold runChecker
  simp [h1, h2, h3, h4, h5]

/-- C3 counterexample: add_oob_auth rejects an unregistered stage type
with MISSING_PARAM, not UNRECOGNIZED. -/
theorem add_oob_auth_unregistered_not_unrecognized :
    (add_oob_auth env0 st0 "f" 0 "m.login.sso" ⟨some "s", none, []⟩ "ip").2 =
      Except.error ⟨400, "", Codes.MISSING_PARAM⟩ ∧
    Codes.MISSING_PARAM ≠ Codes.UNRECOGNIZED :=
  ⟨rfl, by decide⟩

/-- C3 amended: for every stage type with no registered checker,
add_oob_auth rejects the request with error code MISSING_PARAM, whereas
the step-4 dispatch of check_auth rejects the same stage type with
UNRECOGNIZED. -/
theorem add_oob_auth_unregistered_missing_param (env : Env) (st : AuthState)
    (freshId : String) (now : Nat) (t : String) (a : AuthDict) (ip : String)
    (h : checkerRegistered t = false) :
    (add_oob_auth env st freshId now t a ip).2 =
      Except.error ⟨400, "", Codes.MISSING_PARAM⟩ ∧
    (∀ cfg st2 freshId2 now2 flows cd ip2 a2, cd.auth = some a2 →
      a2.type = some t →
      (check_auth env cfg st2 freshId2 now2 flows cd ip2).2 =
        Except.error ⟨400, "", Codes.UNRECOGNIZED⟩) := by
  constructor
  · simp [add_oob_auth, h]
  · intro cfg st2 freshId2 now2 flows cd ip2 a2 hauth htype
    have htr : a2.truthy = true := by
      simp [AuthDict.truthy, htype]
    simp only [check_auth, hauth, Option.getD_some]
    split
    · rename_i hc
      rw [htr] at hc
      cases hc
    · simp only [checkAuthStage, htype, runChecker_eq_none h]

/-- C3 amended witness: the concrete unregistered type m.login.sso. -/
theorem add_oob_auth_unregistered_missing_param_witness :
    (add_oob_auth env0 stW "f" 0 "m.login.sso" ⟨some "s", none, []⟩ "ip").2 =
      Except.error ⟨400, "", Codes.MISSING_PARAM⟩ ∧
    (check_auth env0 cfg0 stW "f" 0 []
        ⟨some ⟨none, some "m.login.sso", []⟩, []⟩ "ip").2 =
      Except.error ⟨400, "", Codes.UNRECOGNIZED⟩ :=
  ⟨(add_oob_auth_unregistered_missing_param env0 stW "f" 0 "m.login.sso"
      ⟨some "s", none, []⟩ "ip" rfl).1,
   (add_oob_auth_unregistered_missing_param env0 stW "f" 0 "m.login.sso"
      ⟨some "s", none, []⟩ "ip" rfl).2 cfg0 stW "f" 0 []
      ⟨some ⟨none, some "m.login.sso", []⟩, []⟩ "ip"
      ⟨none, some "m.login.sso", []⟩ rfl rfl⟩

/-- C9 counterexample: a first check_auth call that presents the dummy
stage type with no prior session against the flow list containing just
the dummy flow completes immediately, so its response is not incomplete. -/
theorem dummy_first_call_completes_immediately :
    ∃ st' r, check_auth env0 cfg0 st0 "sessA" 0 [[LoginType.DUMMY]]
        ⟨some ⟨none, some LoginType.DUMMY, []⟩, []⟩ "ip" =
        (st', Except.ok r) ∧ r.authed = true :=
  ⟨_, _, rfl, rfl⟩

/-- C9 amended: a first check_auth call carrying no auth block and no
prior session returns an incomplete response containing a new session
id and the flows description but no completed field; a second call
presenting that session id and the dummy stage type against the single
dummy flow completes, returning the credential map mapping the dummy
stage type to true. -/
theorem dummy_two_step_scenario :
    ∃ st1 r1, check_auth env0 cfg0 st0 "sessA" 0 [[LoginType.DUMMY]]
        ⟨none, []⟩ "ip" = (st1, Except.ok r1) ∧
      r1.authed = false ∧
      r1.sid = "sessA" ∧
      dictGet "session" r1.body = some (J.s "sessA") ∧
      (dictGet "flows" r1.body).isSome = true ∧
      dictGet "completed" r1.body = none ∧
      ∃ st2 r2, check_auth env0 cfg0 st1 "unused" 1 [[LoginType.DUMMY]]
          ⟨some ⟨some "sessA", some LoginType.DUMMY, []⟩, []⟩ "ip" =
          (st2, Except.ok r2) ∧
        r2.authed = true ∧
        r2.body = [(LoginType.DUMMY, J.b true)] ∧
        r2.sid = "sessA" :=
  ⟨_, _, rfl, rfl, rfl, rfl, rfl, rfl, _, _, rfl, rfl, rfl, rfl⟩

/-! ## String helpers -/

theorem string_append_right_cancel {a b c : String} (h : a ++ c = b ++ c) :
    a = b := by
  apply String.ext
  have hd := congrArg String.data h
  simp only [String.data_append] at hd
  exact List.append_cancel_right hd

theorem string_append_left_cancel {a b c : String} (h : a ++ b = a ++ c) :
    b = c := by
  apply String.ext
  have hd := congrArg String.data h
  simp only [String.data_append] at hd
  exact List.append_cancel_left hd

theorem witLib_hashpw_ne (x s : String) : witLib.hashpw x s ≠ "" := by
  intro h
  have hd := congrArg String.data h
  simp [witLib, String.data_append] at hd

/-! ## Identity resolution (C5) -/

/-- C5: resolve_identity returns the single match, even with differing
case, when the case-insensitive lookup yields exactly one match; the
exact-case match when the lookup yields several matches one of which
equals the query exactly; and none when the lookup yields zero matches
or several matches none of which is exact. -/
theorem resolve_identity_cases (store : List (String × String))
    (user_id : String) (hnd : (store.map Prod.fst).Nodup) :
    (∀ m, get_users_by_id_case_insensitive store user_id = [m] →
      find_user_id_and_pwd_hash store user_id = some m) ∧
    (get_users_by_id_case_insensitive store user_id = [] →
      find_user_id_and_pwd_hash store user_id = none) ∧
    (2 ≤ (get_users_by_id_case_insensitive store user_id).length →
      ∀ h, (user_id, h) ∈ get_users_by_id_case_insensitive store user_id →
        find_user_id_and_pwd_hash store user_id = some (user_id, h)) ∧
    (2 ≤ (get_users_by_id_case_insensitive store user_id).length →
      (∀ h, (user_id, h) ∉ get_users_by_id_case_insensitive store user_id) →
      find_user_id_and_pwd_hash store user_id = none) := by
  have hnd' : ((get_users_by_id_case_insensitive store user_id).map
      Prod.fst).Nodup :=
    ((List.filter_sublist store).map Prod.fst).nodup hnd
  refine ⟨?_, ?_, ?_, ?_⟩
  · intro m hm
    simp [find_user_id_and_pwd_hash, hm]
  · intro hm
    simp [find_user_id_and_pwd_hash, hm]
  · intro hlen h hmem
    have hget := dictGet_eq_some_of_mem_nodup hnd' hmem
    have h1 : (get_users_by_id_case_insensitive store user_id).isEmpty = false := by
      rw [List.isEmpty_eq_false]
      intro he
      rw [he] at hlen
      simp at hlen
    have h2 : ((get_users_by_id_case_insensitive store user_id).length == 1) =
        false := by
      simp only [beq_eq_false_iff_ne]
      omega
    simp [find_user_id_and_pwd_hash, h1, h2, hget]
  · intro hlen hnomem
    have hget : dictGet user_id (get_users_by_id_case_insensitive store user_id) =
        none := by
      cases hd : dictGet user_id (get_users_by_id_case_insensitive store user_id) with
      | none => rfl
      | some hsh => exact absurd (mem_of_dictGet_eq_some hd) (hnomem hsh)
    have h1 : (get_users_by_id_case_insensitive store user_id).isEmpty = false := by
      rw [List.isEmpty_eq_false]
      intro he
      rw [he] at hlen
      simp at hlen
    have h2 : ((get_users_by_id_case_insensitive store user_id).length == 1) =
        false := by
      simp only [beq_eq_false_iff_ne]
      omega
    simp [find_user_id_and_pwd_hash, h1, h2, hget]

/-- C5 witness: two case-insensitive duplicates with one exact match. -/
theorem resolve_identity_cases_witness :
    (∀ m, get_users_by_id_case_insensitive [("@A:x", "h1"), ("@a:x", "h2")]
        "@a:x" = [m] →
      find_user_id_and_pwd_hash [("@A:x", "h1"), ("@a:x", "h2")] "@a:x" =
        some m) ∧
    (get_users_by_id_case_insensitive [("@A:x", "h1"), ("@a:x", "h2")] "@a:x" =
        [] →
      find_user_id_and_pwd_hash [("@A:x", "h1"), ("@a:x", "h2")] "@a:x" =
        none) ∧
    (2 ≤ (get_users_by_id_case_insensitive [("@A:x", "h1"), ("@a:x", "h2")]
        "@a:x").length →
      ∀ h, ("@a:x", h) ∈ get_users_by_id_case_insensitive
          [("@A:x", "h1"), ("@a:x", "h2")] "@a:x" →
        find_user_id_and_pwd_hash [("@A:x", "h1"), ("@a:x", "h2")] "@a:x" =
          some ("@a:x", h)) ∧
    (2 ≤ (get_users_by_id_case_insensitive [("@A:x", "h1"), ("@a:x", "h2")]
        "@a:x").length →
      (∀ h, ("@a:x", h) ∉ get_users_by_id_case_insensitive
          [("@A:x", "h1"), ("@a:x", "h2")] "@a:x") →
      find_user_id_and_pwd_hash [("@A:x", "h1"), ("@a:x", "h2")] "@a:x" =
        none) :=
  resolve_identity_cases [("@A:x", "h1"), ("@a:x", "h2")] "@a:x" (by decide)

/-! ## Password hashing round trip (C6) -/

/-- C6: under the bcrypt library contract, namely that re-hashing with a
digest as salt reproduces the digest, that a digest pins down its
peppered input, and that digests are nonempty, validate_hash accepts the
hash of the same password, rejects the hash of a different password, and
returns false without raising when the stored hash is absent. -/
theorem hash_validate_round_trip (lib : BcryptLib) (cfg : HashConfig)
    (p q : String)
    (hround : ∀ x s, lib.hashpw x (lib.hashpw x s) = lib.hashpw x s)
    (hinj : ∀ x y h, lib.hashpw x h = h → lib.hashpw y h = h → x = y)
    (hne : ∀ x s, lib.hashpw x s ≠ "") :
    validate_hash lib cfg p (some (hashPassword lib cfg p)) = true ∧
    (p ≠ q → validate_hash lib cfg p (some (hashPassword lib cfg q)) = false) ∧
    validate_hash lib cfg p none = false := by
  refine ⟨?_, ?_, rfl⟩
  · show (if (hashPassword lib cfg p).isEmpty then false
      else lib.hashpw (p ++ cfg.password_pepper) (hashPassword lib cfg p) ==
        hashPassword lib cfg p) = true
    rw [if_neg (by
      intro he
      exact hne _ _ ((String.isEmpty_iff _).mp he))]
    unfold hashPassword
    rw [hround]
    exact beq_self_eq_true _
  · intro hpq
    show (if (hashPassword lib cfg q).isEmpty then false
      else lib.hashpw (p ++ cfg.password_pepper) (hashPassword lib cfg q) ==
        hashPassword lib cfg q) = false
    rw [if_neg (by
      intro he
      exact hne _ _ ((String.isEmpty_iff _).mp he))]
    rw [beq_eq_false_iff_ne]
    intro heq
    apply hpq
    apply string_append_right_cancel (c := cfg.password_pepper)
    exact hinj _ _ _ heq (hround (q ++ cfg.password_pepper) _)

/-- C6 witness: the concrete bcrypt model satisfies the contract and the
round trip holds at concrete passwords. -/
theorem hash_validate_round_trip_witness :
    validate_hash witLib witHashCfg "pw"
      (some (hashPassword witLib witHashCfg "pw")) = true ∧
    validate_hash witLib witHashCfg "pw"
      (some (hashPassword witLib witHashCfg "other")) = false ∧
    validate_hash witLib witHashCfg "pw" none = false :=
  ⟨(hash_validate_round_trip witLib witHashCfg "pw" "other" (fun _ _ => rfl)
      (fun x y h hx hy => string_append_left_cancel (hx.trans hy.symm))
      witLib_hashpw_ne).1,
   (hash_validate_round_trip witLib witHashCfg "pw" "other" (fun _ _ => rfl)
      (fun x y h hx hy => string_append_left_cancel (hx.trans hy.symm))
      witLib_hashpw_ne).2.1 (by decide),
   (hash_validate_round_trip witLib witHashCfg "pw" "other" (fun _ _ => rfl)
      (fun x y h hx hy => string_append_left_cancel (hx.trans hy.symm))
      witLib_hashpw_ne).2.2⟩

/-! ## Provider chain lemmas (C7, C10) -/

theorem providerStep1_fst (provider : Provider) (q pw : String)
    (lt : Option String) (known : Bool) :
    (providerStep1 provider q pw lt known).1 = known ∨
    (providerStep1 provider q pw lt known).1 = true := by
  unfold providerStep1
  split
  · split
    · exact Or.inr rfl
    · exact Or.inl rfl
  · exact Or.inl rfl

/-- The only failure the provider loop raises is missing parameters. -/
theorem providerChain_error_shape (q u pw : String) (lt : Option String)
    (sub : List (String × String)) :
    ∀ (ps : List Provider) (known : Bool) (e : LoginFailure),
    providerChain q u pw lt sub ps known = Except.error e →
    ∃ t fs, e = LoginFailure.missingParams t fs := by
  intro ps
  induction ps with
  | nil =>
    intro known e h
    simp [providerChain] at h
  | cons p rest ih =>
    intro known e h
    simp only [providerChain] at h
    repeat' split at h
    all_goals first
      | exact ih _ _ h
      | (cases h <;> exact ⟨_, _, rfl⟩)

/-- Walking the provider chain past a provider that declares the
submitted type (with both capability attributes present) leaves the
known_login_type flag set. -/
theorem providerChain_exhausted_known (q u pw t : String)
    (sub : List (String × String)) :
    ∀ (ps : List Provider) (known k : Bool),
    providerChain q u pw (some t) sub ps known =
      Except.ok (ChainResult.exhausted k) →
    (known = true ∨ ∃ p ∈ ps, ∃ ts, p.get_supported_login_types = some ts ∧
      p.check_auth.isSome = true ∧ (dictGet t ts).isSome = true) →
    k = true := by
  intro ps
  induction ps with
  | nil =>
    intro known k h hrec
    simp only [providerChain, Except.ok.injEq, ChainResult.exhausted.injEq] at h
    subst h
    rcases hrec with h1 | ⟨p, hp, _⟩
    · exact h1
    · simp at hp
  | cons p rest ih =>
    intro known k h hrec
    obtain ⟨⟨known1, res1⟩, hs1⟩ :
      ∃ x, providerStep1 p q pw (some t) known = x := ⟨_, rfl⟩
    have hk1 : known1 = known ∨ known1 = true := by
      have hf := providerStep1_fst p q pw (some t) known
      rw [hs1] at hf
      exact hf
    have hknown1 : known = true → known1 = true := by
      intro hk
      rcases hk1 with h1 | h1
      · rw [h1, hk]
      · exact h1
    simp only [providerChain, hs1] at h
    rcases res1 with _ | r
    · rcases hgs : p.get_supported_login_types with _ | supported <;>
        rcases hca : p.check_auth with _ | ca <;>
        simp only [hgs, hca] at h
      · exact ih known1 k h (by
          rcases hrec with hk | ⟨p', hp', ts, hts, hcauth, hget⟩
          · exact Or.inl (hknown1 hk)
          · rcases List.mem_cons.mp hp' with heq | hp'rest
            · rw [heq, hgs] at hts
              cases hts
            · exact Or.inr ⟨p', hp'rest, ts, hts, hcauth, hget⟩)
      · exact ih known1 k h (by
          rcases hrec with hk | ⟨p', hp', ts, hts, hcauth, hget⟩
          · exact Or.inl (hknown1 hk)
          · rcases List.mem_cons.mp hp' with heq | hp'rest
            · rw [heq, hgs] at hts
              cases hts
            · exact Or.inr ⟨p', hp'rest, ts, hts, hcauth, hget⟩)
      · exact ih known1 k h (by
          rcases hrec with hk | ⟨p', hp', ts, hts, hcauth, hget⟩
          · exact Or.inl (hknown1 hk)
          · rcases List.mem_cons.mp hp' with heq | hp'rest
            · rw [heq, hca] at hcauth
              cases hcauth
            · exact Or.inr ⟨p', hp'rest, ts, hts, hcauth, hget⟩)
      · rcases hft : dictGet t supported with _ | fields <;>
          simp only [hft] at h
        · exact ih known1 k h (by
            rcases hrec with hk | ⟨p', hp', ts, hts, hcauth, hget⟩
            · exact Or.inl (hknown1 hk)
            · rcases List.mem_cons.mp hp' with heq | hp'rest
              · rw [heq, hgs, Option.some_inj] at hts
                rw [← hts, hft] at hget
                cases hget
              · exact Or.inr ⟨p', hp'rest, ts, hts, hcauth, hget⟩)
        · split at h
          · rcases hn : (ca u t (fields.filterMap
                (fun f => (dictGet f sub).map (fun v => (f, v))))).norm
              with _ | r2 <;> simp only [hn] at h
            · exact ih true k h (Or.inl rfl)
            · simp at h
          · simp at h
    · simp at h

/-- C7: validate_login distinguishes its two failure modes. When the
submitted login type is recognized, the password type or a type some
provider declares with both capability attributes, the result is never
the unknown-login-type failure; for the password type, enabled and
with a nonempty password, when the provider chain is exhausted without
a match and the local credential lookup produces nothing, the result is
exactly the invalid-credentials failure; and for a recognized
provider-declared custom type other than the password type, exhaustion
of the provider chain without a match likewise yields exactly the
invalid-credentials failure. -/
theorem validate_login_error_taxonomy (cfg : LoginConfig) (lib : BcryptLib)
    (hcfg : HashConfig) (providers : List Provider)
    (store : List (String × String)) (username : String)
    (submission : List (String × String))
    (recognized : dictGet "type" submission = some LoginType.PASSWORD ∨
      ∃ t, dictGet "type" submission = some t ∧ ∃ p ∈ providers, ∃ ts,
        p.get_supported_login_types = some ts ∧ p.check_auth.isSome = true ∧
        (dictGet t ts).isSome = true) :
    (∀ lt, validate_login cfg lib hcfg providers store username submission ≠
      Except.error (LoginFailure.unknownLoginType lt)) ∧
    (dictGet "type" submission = some LoginType.PASSWORD →
      cfg.password_enabled = true →
      ((dictGet "password" submission).getD "").isEmpty = false →
      ∀ k, providerChain (qualifyUserId cfg username) username
          ((dictGet "password" submission).getD "")
          (some LoginType.PASSWORD) submission providers false =
          Except.ok (ChainResult.exhausted k) →
        check_local_password lib hcfg store (qualifyUserId cfg username)
          ((dictGet "password" submission).getD "") = none →
        validate_login cfg lib hcfg providers store username submission =
          Except.error LoginFailure.invalidCredentials) ∧
    (∀ t, dictGet "type" submission = some t →
      t ≠ LoginType.PASSWORD →
      (∃ p ∈ providers, ∃ ts, p.get_supported_login_types = some ts ∧
        p.check_auth.isSome = true ∧ (dictGet t ts).isSome = true) →
      ∀ k, providerChain (qualifyUserId cfg username) username
          ((dictGet "password" submission).getD "") (some t) submission
          providers false = Except.ok (ChainResult.exhausted k) →
        validate_login cfg lib hcfg providers store username submission =
          Except.error LoginFailure.invalidCredentials) := by
  refine ⟨?_, ?_, ?_⟩
  · intro lt hcontra
    simp only [validate_login] at hcontra
    split at hcontra
    · cases hcontra
    · split at hcontra
      · cases hcontra
      · split at hcontra
        · rename_i e hchain
          obtain ⟨t', fs, he⟩ :=
            providerChain_error_shape _ _ _ _ _ providers false e hchain
          rw [he] at hcontra
          cases hcontra
        · cases hcontra
        · rename_i known hchain
          split at hcontra
          · split at hcontra
            · split at hcontra
              · cases hcontra
              · cases hcontra
            · cases hcontra
          · split at hcontra
            · rename_i hnotpw hknown
              rcases recognized with htype | ⟨t, htype, wit⟩
              · exact hnotpw htype
              · rw [htype] at hchain
                have hk := providerChain_exhausted_known _ _ _ t _ providers
                  false known hchain (Or.inr wit)
                rw [hk] at hknown
                cases hknown
            · cases hcontra
  · intro htype henabled hpw k hchain hlocal
    simp only [validate_login, htype, henabled, hpw, hchain, hlocal]
    simp
  · intro t htype htne hwit k hchain
    have hk : k = true := providerChain_exhausted_known _ _ _ t _ providers
      false k hchain (Or.inr hwit)
    subst hk
    simp only [validate_login, htype, hchain]
    simp [htne]

/-- C7 witness: a password submission for an unknown user on a plain
deployment yields invalid credentials and never unknown login type, and
a submission of the provider-declared custom type m.login.jwt whose
chain is exhausted also yields invalid credentials. -/
theorem validate_login_error_taxonomy_witness :
    (∀ lt, validate_login ⟨true, "srv"⟩ witLib witHashCfg [] [] "alice"
        [("type", LoginType.PASSWORD), ("password", "x")] ≠
      Except.error (LoginFailure.unknownLoginType lt)) ∧
    validate_login ⟨true, "srv"⟩ witLib witHashCfg [] [] "alice"
        [("type", LoginType.PASSWORD), ("password", "x")] =
      Except.error LoginFailure.invalidCredentials ∧
    validate_login ⟨true, "srv"⟩ witLib witHashCfg [provW] [] "alice"
        [("type", "m.login.jwt")] =
      Except.error LoginFailure.invalidCredentials :=
  ⟨(validate_login_error_taxonomy ⟨true, "srv"⟩ witLib witHashCfg [] []
      "alice" [("type", LoginType.PASSWORD), ("password", "x")]
      (Or.inl rfl)).1,
   (validate_login_error_taxonomy ⟨true, "srv"⟩ witLib witHashCfg [] []
      "alice" [("type", LoginType.PASSWORD), ("password", "x")]
      (Or.inl rfl)).2.1 rfl rfl rfl false rfl rfl,
   (validate_login_error_taxonomy ⟨true, "srv"⟩ witLib witHashCfg [provW] []
      "alice" [("type", "m.login.jwt")]
      (Or.inr ⟨"m.login.jwt", rfl, provW, List.mem_singleton.mpr rfl,
        [("m.login.jwt", [])], rfl, rfl, rfl⟩)).2.2 "m.login.jwt" rfl
      (by decide)
      ⟨provW, List.mem_singleton.mpr rfl, [("m.login.jwt", [])], rfl, rfl, rfl⟩
      true rfl⟩

/-! ## Token issuance (C8) -/

/-- C8: the short-term login token carries, in order, the caveats gen,
user id, type login, and a time deadline equal to the current clock time
plus the caller-supplied duration; the deadline is strictly in the
future at issuance for every positive duration, and the default duration
is two minutes, 120000 milliseconds. -/
theorem short_term_login_token_caveats (cfg : MacaroonConfig) (now : Nat)
    (user_id : String) (d : Nat) :
    (generate_short_term_login_token cfg now user_id d).caveats =
      ["gen = 1", "user_id = " ++ user_id, "type = login",
       "time < " ++ toString (now + d)] ∧
    (0 < d → now < now + d) ∧
    generate_short_term_login_token cfg now user_id =
      generate_short_term_login_token cfg now user_id (2 * 60 * 1000) ∧
    (2 * 60 * 1000 : Nat) = 120000 :=
  ⟨rfl, fun h => Nat.lt_add_of_pos_right h, rfl, rfl⟩

/-- C8 witness: concrete token issuance at clock 5 with duration 7. -/
theorem short_term_login_token_caveats_witness :
    (generate_short_term_login_token ⟨"srv", "sec"⟩ 5 "@u:srv" 7).caveats =
      ["gen = 1", "user_id = " ++ "@u:srv", "type = login",
       "time < " ++ toString (5 + 7)] ∧
    5 < 5 + 7 :=
  ⟨(short_term_login_token_caveats ⟨"srv", "sec"⟩ 5 "@u:srv" 7).1,
   (short_term_login_token_caveats ⟨"srv", "sec"⟩ 5 "@u:srv" 7).2.1
     (by decide)⟩

/-! ## Disabled password login (C10) -/

/-- C10: when password login is disabled in the configuration,
validate_login with a password-type submission fails with the
password-disabled error, a 400 with the message Password login has been
disabled, for every provider list, credential store, username and
password value, so neither providers nor the local store are consulted. -/
theorem password_login_disabled_rejected (cfg : LoginConfig) (lib : BcryptLib)
    (hcfg : HashConfig) (providers : List Provider)
    (store : List (String × String)) (username : String)
    (submission : List (String × String))
    (hdis : cfg.password_enabled = false)
    (htype : dictGet "type" submission = some LoginType.PASSWORD) :
    validate_login cfg lib hcfg providers store username submission =
      Except.error LoginFailure.passwordDisabled ∧
    LoginFailure.passwordDisabled.httpCode = 400 ∧
    LoginFailure.passwordDisabled.message =
      "Password login has been disabled." := by
  refine ⟨?_, rfl, rfl⟩
  simp [validate_login, htype, hdis]

/-- C10 witness: a concrete password submission on a disabled
configuration. -/
theorem password_login_disabled_rejected_witness :
    validate_login ⟨false, "srv"⟩ witLib witHashCfg [] [] "alice"
        [("type", LoginType.PASSWORD), ("password", "x")] =
      Except.error LoginFailure.passwordDisabled ∧
    LoginFailure.passwordDisabled.httpCode = 400 ∧
    LoginFailure.passwordDisabled.message =
      "Password login has been disabled." :=
  password_login_disabled_rejected ⟨false, "srv"⟩ witLib witHashCfg [] []
    "alice" [("type", LoginType.PASSWORD), ("password", "x")] rfl rfl

end Synapse
